import Mathlib

/-!
Shallow embedding of the FTP LIST line parser (`parse.go` of the `ftp` package).

Go strings are modelled as `List Char` (one `Char` per byte; all inputs of
interest are ASCII).  Machine integers are modelled as `Nat`/`Int` with the
explicit overflow checks that `strconv` performs.  `time.Time` values are
modelled as an absolute count of seconds on the proleptic Gregorian calendar
(sub-second precision is irrelevant to every code path embedded here); the
`*time.Location` parameter is uniform across one call and therefore phantom.
Fallible Go functions returning `(T, error)` become `Except GoError T`.
-/

namespace FtpList

/-- A Go string, one entry per byte (ASCII). -/
abbrev GoStr := List Char

/-- Injection of Lean string literals into the Go-string model. -/
def str (s : String) : GoStr := s.data

/-- Go `strings.Index`-style result: `-1` for "not found". -/
def idxInt : Option Nat → Int
  | none => -1
  | some n => (n : Int)

/-- `strings.IndexByte s c`: index of the first occurrence of byte `c`. -/
def goIndexByte : GoStr → Char → Option Nat
  | [], _ => none
  | c :: rest, b => if c = b then some 0 else (goIndexByte rest b).map (· + 1)

/-- `strings.Index s pat`: index of the first occurrence of substring `pat`. -/
def goIndexSub (pat : GoStr) : GoStr → Option Nat
  | [] => if pat = [] then some 0 else none
  | c :: rest =>
    if List.isPrefixOf pat (c :: rest) then some 0
    else (goIndexSub pat rest).map (· + 1)

/-- `strings.Contains s pat`. -/
def goContains (s pat : GoStr) : Bool := (goIndexSub pat s).isSome

/-- `strings.TrimLeft s " "`: drop leading space bytes. -/
def dropLeadingSpaces : GoStr → GoStr
  | ' ' :: rest => dropLeadingSpaces rest
  | s => s

/-- `strings.HasSuffix s pat`. -/
def goHasSuffix (s pat : GoStr) : Bool := List.isSuffixOf pat s

/-- `strings.Split s ";"`. Always returns at least one (possibly empty) field. -/
def goSplitSemi : GoStr → List GoStr
  | [] => [[]]
  | ';' :: rest => [] :: goSplitSemi rest
  | c :: rest =>
    match goSplitSemi rest with
    | f :: fs => (c :: f) :: fs
    | [] => [[c]]

/-- ASCII `strings.ToLower` on one byte. -/
def goToLowerChar (c : Char) : Char :=
  if 'A' ≤ c ∧ c ≤ 'Z' then Char.ofNat (c.toNat + 32) else c

/-- ASCII `strings.ToLower` (the keys compared in `parse.go` are ASCII). -/
def goToLower (s : GoStr) : GoStr := s.map goToLowerChar

/-- Go string indexing `s[i]`; callers in `parse.go` only index in bounds
(out-of-range would panic in Go), so the default byte is never observable. -/
def goStrAt (s : GoStr) (i : Nat) : Char := s.getD i (Char.ofNat 0)

/-! ## The token scanner (`scanner.go`)

Modelled from the spec: the whitespace-delimited token scanner of §4.1
("Token Scanner": `next`, `next_fields`, `remaining`) whose source file is
not part of `src/`.  `next` skips leading spaces, reads a maximal run of
non-space bytes and then advances past exactly one delimiter space; this
single-space advance (rather than "any following whitespace") is forced by
the repository's own tests, which expect the name `" foo bar "` — with one
leading space preserved — from a line whose date field is followed by two
spaces.  `remaining` is the untouched rest of the line. -/

/-- One token: maximal run of non-space bytes, then one delimiter space is
consumed.  Input is assumed to start with a non-space (callers strip first). -/
def takeToken : GoStr → GoStr × GoStr
  | [] => ([], [])
  | ' ' :: rest => ([], rest)
  | c :: rest =>
    let p := takeToken rest
    (c :: p.1, p.2)

/-- `scanner.Next()`: the next token and the scanner state after it. -/
def scanNext (s : GoStr) : GoStr × GoStr :=
  takeToken (dropLeadingSpaces s)

/-- `scanner.NextFields(count)`: up to `count` tokens via repeated `Next`,
stopping early at the first empty token. -/
def scanNextFields : Nat → GoStr → List GoStr × GoStr
  | 0, s => ([], s)
  | n + 1, s =>
    let p := scanNext s
    if p.1 = [] then ([], p.2)
    else
      let q := scanNextFields n p.2
      (p.1 :: q.1, q.2)

/-! ## `strconv` (Go standard library, as called by `parse.go`) -/

/-- `strconv` error kinds (`ErrSyntax` / `ErrRange`). -/
inductive NumErr
  | syn
  | range
  deriving DecidableEq, Repr

def isDigitChar (c : Char) : Bool := '0' ≤ c ∧ c ≤ '9'

/-- Go's `lower(c)`: set bit 0x20. -/
def goLowerByte (n : Nat) : Nat := n ||| 32

/-- Digit value in bases up to 36, as in `strconv.ParseUint`'s loop. -/
def digitValue (c : Char) : Option Nat :=
  if isDigitChar c then some (c.toNat - 48)
  else
    let l := goLowerByte c.toNat
    if 97 ≤ l ∧ l ≤ 122 then some (l - 97 + 10) else none

def maxUint64 : Nat := 18446744073709551615

/-- The digit loop of `strconv.ParseUint` (bitSize 64): accumulates the value,
tracking whether an underscore was seen; overflow past `maxUint64` is a range
error exactly where Go detects it. -/
def parseUintLoop (base : Nat) (base0 : Bool) (cutoff : Nat) :
    GoStr → Nat → Bool → Except NumErr (Nat × Bool)
  | [], n, us => .ok (n, us)
  | c :: rest, n, us =>
    if c = '_' ∧ base0 then parseUintLoop base base0 cutoff rest n true
    else
      match digitValue c with
      | none => .error .syn
      | some d =>
        if base ≤ d then .error .syn
        else if cutoff ≤ n then .error .range
        else
          let n1 := n * base + d
          if maxUint64 < n1 then .error .range
          else parseUintLoop base base0 cutoff rest n1 us

/-- `underscoreOK` inner scan; `saw` is Go's one-character state machine. -/
def underscoreOKLoop : GoStr → Char → Bool → Bool
  | [], saw, _ => saw ≠ '_'
  | c :: rest, saw, hex =>
    if isDigitChar c ∨ (hex ∧ 97 ≤ goLowerByte c.toNat ∧ goLowerByte c.toNat ≤ 102) then
      underscoreOKLoop rest '0' hex
    else if c = '_' then
      if saw ≠ '0' then false else underscoreOKLoop rest '_' hex
    else if saw = '_' then false
    else underscoreOKLoop rest '!' hex

/-- `strconv`'s `underscoreOK s`: underscores only between digits or after a
base prefix. -/
def underscoreOK (s : GoStr) : Bool :=
  let s1 := match s with
    | c :: rest => if c = '-' ∨ c = '+' then rest else s
    | [] => s
  match s1 with
  | '0' :: c :: rest =>
    let l := goLowerByte c.toNat
    if l = 98 ∨ l = 111 ∨ l = 120 then underscoreOKLoop rest '0' (l = 120)
    else underscoreOKLoop s1 '^' false
  | _ => underscoreOKLoop s1 '^' false

/-- `strconv.ParseUint(s, base, 64)` for `base = 0` or `10` as used by
`parse.go`; base 0 performs prefix detection (`0b`/`0o`/`0x`/leading-zero
octal) and permits underscores. -/
def goParseUint (s : GoStr) (base : Nat) : Except NumErr Nat :=
  if s = [] then .error .syn
  else
    let base0 := base = 0
    let p : Nat × GoStr :=
      if base ≠ 0 then (base, s)
      else
        match s with
        | '0' :: c :: rest =>
          if rest ≠ [] ∧ goLowerByte c.toNat = 98 then (2, rest)
          else if rest ≠ [] ∧ goLowerByte c.toNat = 111 then (8, rest)
          else if rest ≠ [] ∧ goLowerByte c.toNat = 120 then (16, rest)
          else (8, c :: rest)
        | ['0'] => (8, [])
        | _ => (10, s)
    let b := p.1
    let cutoff := maxUint64 / b + 1
    match parseUintLoop b base0 cutoff p.2 0 false with
    | .error e => .error e
    | .ok (n, us) =>
      if us ∧ ¬ underscoreOK s then .error .syn else .ok n

/-- Digit accumulation for `strconv.Atoi`'s fast path. -/
def atoiDigits : GoStr → Nat → Option Nat
  | [], n => some n
  | c :: rest, n =>
    if isDigitChar c then atoiDigits rest (n * 10 + (c.toNat - 48)) else none

/-- Slow path of `Atoi`: `ParseInt(s, 10, 64)`. -/
def goParseIntDec (s : GoStr) : Except NumErr Int :=
  match s with
  | [] => .error .syn
  | _ =>
    let p : Bool × GoStr :=
      match s with
      | '+' :: rest => (false, rest)
      | '-' :: rest => (true, rest)
      | _ => (false, s)
    match goParseUint p.2 10 with
    | .error e => .error e
    | .ok un =>
      if ¬ p.1 ∧ 9223372036854775807 < un then .error .range
      else if p.1 ∧ 9223372036854775808 < un then .error .range
      else .ok (if p.1 then -(un : Int) else (un : Int))

/-- `strconv.Atoi`: fast path for fewer than 19 bytes (optional sign, decimal
digits), otherwise `ParseInt(s, 10, 64)`. -/
def goAtoi (s : GoStr) : Except NumErr Int :=
  if s.length = 0 then .error .syn
  else if s.length < 19 then
    let p : Bool × GoStr :=
      match s with
      | '-' :: rest => (true, rest)
      | '+' :: rest => (false, rest)
      | _ => (false, s)
    if p.2 = [] then .error .syn
    else
      match atoiDigits p.2 0 with
      | none => .error .syn
      | some n => .ok (if p.1 then -(n : Int) else (n : Int))
  else goParseIntDec s

/-! ## The calendar model (Go `time` package)

`time.Date` normalizes out-of-range fields exactly like the civil-calendar
conversion below (month overflow moves the year, day overflow moves linearly
through the day count), so a `time.Time` is one integer: seconds relative to
the Unix epoch on the caller's location's clock. -/

/-- Days since 1970-01-01 of civil date `(y, m, d)` with `1 ≤ m ≤ 12`;
linear in `d`, which gives `time.Date`'s day normalization for free. -/
def daysFromCivil (y m d : Int) : Int :=
  let yy := if m ≤ 2 then y - 1 else y
  let era := Int.ediv yy 400
  let yoe := yy - era * 400
  let mp := if 2 < m then m - 3 else m + 9
  let doy := Int.ediv (153 * mp + 2) 5 + d - 1
  let doe := yoe * 365 + Int.ediv yoe 4 - Int.ediv yoe 100 + doy
  era * 146097 + doe - 719468

/-- Civil date `(y, m, d)` of a day count since 1970-01-01. -/
def civilFromDays (z0 : Int) : Int × Int × Int :=
  let z := z0 + 719468
  let era := Int.ediv z 146097
  let doe := z - era * 146097
  let yoe := Int.ediv (doe - Int.ediv doe 1460 + Int.ediv doe 36524 - Int.ediv doe 146096) 365
  let y := yoe + era * 400
  let doy := doe - (365 * yoe + Int.ediv yoe 4 - Int.ediv yoe 100)
  let mp := Int.ediv (5 * doy + 2) 153
  let d := doy - Int.ediv (153 * mp + 2) 5 + 1
  let m := if mp < 10 then mp + 3 else mp - 9
  (if m ≤ 2 then y + 1 else y, m, d)

/-- `time.Date(y, m, d, h, mi, s, 0, loc)` as seconds; months are normalized
into years first (Go's `norm`), all remaining fields are linear. -/
def goDate (y m d h mi s : Int) : Int :=
  let m0 := m - 1
  let y1 := y + Int.ediv m0 12
  let m1 := Int.emod m0 12 + 1
  daysFromCivil y1 m1 d * 86400 + h * 3600 + mi * 60 + s

/-- The zero `time.Time`: 0001-01-01 00:00:00. -/
def goZeroTime : Int := goDate 1 1 1 0 0 0

/-- `t.AddDate(years, months, days)`: decompose, add, re-`Date`. -/
def goAddDate (t years months days : Int) : Int :=
  let day := Int.ediv t 86400
  let tod := Int.emod t 86400
  let c := civilFromDays day
  goDate (c.1 + years) (c.2.1 + months) (c.2.2 + days) 0 0 0 + tod

/-- The year component of `t.Date()`. -/
def goYearOf (t : Int) : Int := (civilFromDays (Int.ediv t 86400)).1

/-- Go `isLeap`. -/
def goIsLeap (y : Int) : Bool := y % 4 = 0 ∧ (y % 100 ≠ 0 ∨ y % 400 = 0)

/-- Go `daysIn(m, year)` for `1 ≤ m ≤ 12` (the only values reaching it). -/
def goDaysIn (m y : Int) : Int :=
  if m = 2 then (if goIsLeap y then 29 else 28)
  else if m = 4 ∨ m = 6 ∨ m = 9 ∨ m = 11 then 30
  else 31

/-- Decimal rendering of an `Int`, as `fmt.Sprintf("%d", _)` produces. -/
def intToDec (i : Int) : GoStr :=
  if i < 0 then '-' :: Nat.toDigits 10 (-i).toNat else Nat.toDigits 10 i.toNat

/-! ## `time.ParseInLocation` for the fixed layouts of `parse.go`

Each layout string appearing in `parse.go` is compiled by hand into a parser
following Go's per-chunk `Parse` semantics (`getnum`, `skip`/`cutspace` for
space runs, case-insensitive short month names, inline range checks, the
trailing "extra text" check and the final day-of-month range check). -/

def digitVal (c : Char) : Int := (c.toNat : Int) - 48

/-- Go `getnum(s, fixed)`: one or two digits (exactly two when `fixed`). -/
def getnum (s : GoStr) (fixed : Bool) : Option (Int × GoStr) :=
  match s with
  | [] => none
  | [c1] => if isDigitChar c1 ∧ ¬ fixed then some (digitVal c1, []) else none
  | c1 :: c2 :: rest =>
    if isDigitChar c1 then
      if isDigitChar c2 then some (digitVal c1 * 10 + digitVal c2, rest)
      else if fixed then none
      else some (digitVal c1, c2 :: rest)
    else none

/-- Go `skip` for a run of spaces in the layout: the value must start with a
space (or be exhausted), and all its leading spaces are consumed. -/
def skipSpaceLit (v : GoStr) : Option GoStr :=
  match v with
  | [] => some []
  | c :: _ => if c = ' ' then some (dropLeadingSpaces v) else none

/-- One literal layout byte. -/
def expectChar (c : Char) (v : GoStr) : Option GoStr :=
  match v with
  | [] => none
  | c1 :: rest => if c1 = c then some rest else none

/-- Go `match`: byte equality up to ASCII case folding of letters. -/
def goCharFoldEq (c1 c2 : Char) : Bool :=
  c1 = c2 ∨
    (let n1 := goLowerByte c1.toNat
     let n2 := goLowerByte c2.toNat
     n1 = n2 ∧ 97 ≤ n1 ∧ n1 ≤ 122)

def shortMonthNames : List GoStr :=
  [str "Jan", str "Feb", str "Mar", str "Apr", str "May", str "Jun",
   str "Jul", str "Aug", str "Sep", str "Oct", str "Nov", str "Dec"]

/-- Go `lookup(shortMonthNames, v)` followed by `month++`: the first name
that case-insensitively prefixes `v` gives the month number. -/
def lookupMonth : List GoStr → Nat → GoStr → Option (Int × GoStr)
  | [], _, _ => none
  | name :: rest, i, v =>
    if name.length ≤ v.length ∧
        (List.zip (v.take name.length) name).all fun p => goCharFoldEq p.1 p.2 then
      some ((i : Int) + 1, v.drop name.length)
    else lookupMonth rest (i + 1) v

/-- `time`'s internal `leadingInt` (overflow guard at `2^63 / 10`). -/
def leadingIntGo : Int → GoStr → Option (Int × GoStr)
  | x, [] => some (x, [])
  | x, c :: rest =>
    if ¬ isDigitChar c then some (x, c :: rest)
    else if 922337203685477580 < x then none
    else leadingIntGo (x * 10 + digitVal c) rest

/-- `time`'s internal `atoi`: optional sign, then only digits. -/
def atoiTime (s : GoStr) : Option Int :=
  let p : Bool × GoStr :=
    match s with
    | '-' :: rest => (true, rest)
    | '+' :: rest => (false, rest)
    | _ => (false, s)
  match leadingIntGo 0 p.2 with
  | none => none
  | some (x, rem) => if rem = [] then some (if p.1 then -x else x) else none

/-- `stdLongYear` ("2006"): four bytes, first a digit, `atoi` of all four. -/
def parseLongYear (v : GoStr) : Option (Int × GoStr) :=
  if v.length < 4 ∨ ¬ isDigitChar (v.headD ' ') then none
  else
    match atoiTime (v.take 4) with
    | none => none
    | some y => some (y, v.drop 4)

/-- `stdYear` ("06"): two bytes through `atoi`, then the 1969-pivot. -/
def parseShortYear (v : GoStr) : Option (Int × GoStr) :=
  if v.length < 2 then none
  else
    match atoiTime (v.take 2) with
    | none => none
    | some y => some ((if 69 ≤ y then y + 1900 else y + 2000), v.drop 2)

/-- The fractional-second special case after a seconds chunk: `.ddd` (or
`,ddd`) is consumed even though the layout has no fraction; more than nine
fractional digits is an error.  The value is ignored at second resolution. -/
def fracSecTail (v : GoStr) : Option GoStr :=
  match v with
  | c :: c2 :: _ =>
    if (c = '.' ∨ c = ',') ∧ isDigitChar c2 then
      let n := 1 + ((v.drop 1).takeWhile isDigitChar).length
      if 10 < n then none else some (v.drop n)
    else some v
  | _ => some v

/-- `ParseInLocation("20060102150405", v, loc)` (the RFC 3659 `modify` fact). -/
def parseTimeModify (v : GoStr) : Option Int :=
  match parseLongYear v with
  | none => none
  | some (year, v) =>
  match getnum v true with
  | none => none
  | some (month, v) =>
  if month ≤ 0 ∨ 12 < month then none else
  match getnum v true with
  | none => none
  | some (day, v) =>
  match getnum v false with
  | none => none
  | some (hour, v) =>
  if hour < 0 ∨ 24 ≤ hour then none else
  match getnum v true with
  | none => none
  | some (minute, v) =>
  if minute < 0 ∨ 60 ≤ minute then none else
  match getnum v true with
  | none => none
  | some (sec, v) =>
  if sec < 0 ∨ 60 ≤ sec then none else
  match fracSecTail v with
  | none => none
  | some v =>
  if v ≠ [] then none
  else if day < 1 ∨ goDaysIn month year < day then none
  else some (goDate year month day hour minute sec)

/-- `ParseInLocation("_2 Jan 2006 15:04", v, loc)` (the shared `setTime`
layout: space-padded day, short month name, long year, 24-hour clock). -/
def parseTimeLs (v : GoStr) : Option Int :=
  let v := match v with | ' ' :: rest => rest | other => other
  match getnum v false with
  | none => none
  | some (day, v) =>
  match skipSpaceLit v with
  | none => none
  | some v =>
  match lookupMonth shortMonthNames 0 v with
  | none => none
  | some (month, v) =>
  match skipSpaceLit v with
  | none => none
  | some v =>
  match parseLongYear v with
  | none => none
  | some (year, v) =>
  match skipSpaceLit v with
  | none => none
  | some v =>
  match getnum v false with
  | none => none
  | some (hour, v) =>
  if hour < 0 ∨ 24 ≤ hour then none else
  match expectChar ':' v with
  | none => none
  | some v =>
  match getnum v true with
  | none => none
  | some (minute, v) =>
  if minute < 0 ∨ 60 ≤ minute then none else
  if v ≠ [] then none
  else if day < 1 ∨ goDaysIn month year < day then none
  else some (goDate year month day hour minute 0)

/-- Shared tail of the four DOS `DIR` layouts: after the date, a run of
spaces, the clock, an optional 12-hour marker, the extra-text and
day-range checks. -/
def parseDirClock (year month day : Int) (twelveHour : Bool) (v : GoStr) :
    Option Int :=
  match skipSpaceLit v with
  | none => none
  | some v =>
  match getnum v twelveHour with
  | none => none
  | some (h, v) =>
  if twelveHour ∧ (h < 0 ∨ 12 < h) then none else
  if ¬ twelveHour ∧ (h < 0 ∨ 24 ≤ h) then none else
  match expectChar ':' v with
  | none => none
  | some v =>
  match getnum v true with
  | none => none
  | some (minute, v) =>
  if minute < 0 ∨ 60 ≤ minute then none else
  let pm : Option (Bool × GoStr) :=
    if twelveHour then
      match v with
      | 'P' :: 'M' :: rest => some (true, rest)
      | 'A' :: 'M' :: rest => some (false, rest)
      | _ => none
    else some (false, v)
  match pm with
  | none => none
  | some (isPM, v) =>
  if v ≠ [] then none
  else if day < 1 ∨ goDaysIn month year < day then none
  else
    let hour :=
      if twelveHour then
        if isPM ∧ h < 12 then h + 12 else if ¬ isPM ∧ h = 12 then 0 else h
      else h
    some (goDate year month day hour minute 0)

/-- `ParseInLocation("01-02-06  03:04PM", v, loc)`. -/
def parseDirFmt1 (v : GoStr) : Option Int :=
  match getnum v true with
  | none => none
  | some (month, v) =>
  if month ≤ 0 ∨ 12 < month then none else
  match expectChar '-' v with
  | none => none
  | some v =>
  match getnum v true with
  | none => none
  | some (day, v) =>
  match expectChar '-' v with
  | none => none
  | some v =>
  match parseShortYear v with
  | none => none
  | some (year, v) => parseDirClock year month day true v

/-- `ParseInLocation("2006-01-02  15:04", v, loc)`. -/
def parseDirFmt2 (v : GoStr) : Option Int :=
  match parseLongYear v with
  | none => none
  | some (year, v) =>
  match expectChar '-' v with
  | none => none
  | some v =>
  match getnum v true with
  | none => none
  | some (month, v) =>
  if month ≤ 0 ∨ 12 < month then none else
  match expectChar '-' v with
  | none => none
  | some v =>
  match getnum v true with
  | none => none
  | some (day, v) => parseDirClock year month day false v

/-- `ParseInLocation("01-02-2006  03:04PM", v, loc)`. -/
def parseDirFmt3 (v : GoStr) : Option Int :=
  match getnum v true with
  | none => none
  | some (month, v) =>
  if month ≤ 0 ∨ 12 < month then none else
  match expectChar '-' v with
  | none => none
  | some v =>
  match getnum v true with
  | none => none
  | some (day, v) =>
  match expectChar '-' v with
  | none => none
  | some v =>
  match parseLongYear v with
  | none => none
  | some (year, v) => parseDirClock year month day true v

/-- `ParseInLocation("01-02-2006  15:04", v, loc)`. -/
def parseDirFmt4 (v : GoStr) : Option Int :=
  match getnum v true with
  | none => none
  | some (month, v) =>
  if month ≤ 0 ∨ 12 < month then none else
  match expectChar '-' v with
  | none => none
  | some v =>
  match getnum v true with
  | none => none
  | some (day, v) =>
  match expectChar '-' v with
  | none => none
  | some v =>
  match parseLongYear v with
  | none => none
  | some (year, v) => parseDirClock year month day false v

/-! ## Data model (`ftp.go`)

Modelled from the spec (§3): the `EntryType`/`Entry` record types, whose
declaring source file is not part of `src/`.  The zero value of `EntryType`
is `File` (first variant), matching the spec's closed variant order. -/

/-- The closed set of entry types. -/
inductive EntryType
  | file
  | folder
  | link
  deriving DecidableEq, Repr

/-- Errors produced by the embedded code.  `unsupportedListLine` is the
shared "not this dialect" sentinel (`errUnsupportedListLine`), which doubles
as the chain's "unrecognized dialect" result; `numError` carries a `strconv`
error, `timeParseError` stands for a `*time.ParseError`. -/
inductive GoError
  | unsupportedListLine
  | unsupportedListDate
  | unknownListEntryType
  | timeParseError
  | numError (e : NumErr)
  deriving DecidableEq, Repr

/-- The normalized output record. -/
structure Entry where
  name : GoStr := []
  target : GoStr := []
  size : Nat := 0
  type : EntryType := .file
  time : Int := goZeroTime
  deriving DecidableEq, Repr

/-- `&Entry{}`. -/
def emptyEntry : Entry := {}

/-- `(*Entry).setSize`: `strconv.ParseUint(str, 0, 64)` — note base 0, so
alternate base prefixes and underscores are accepted wherever `setSize` is
used. -/
def setSizeVal (s : GoStr) : Except NumErr Nat := goParseUint s 0

/-- `(*Entry).setTime` on its three date fields, returning the new time.
The third field containing a colon selects the year-less clock shape with
the six-month recency correction; otherwise the third field must be a
four-byte year. -/
def setTime3 (f0 f1 f2 : GoStr) (now : Int) : Except GoError Int :=
  if goContains f2 (str ":") then
    let timeStr := f1 ++ [' '] ++ f0 ++ [' '] ++ intToDec (goYearOf now) ++ [' '] ++ f2
    match parseTimeLs timeStr with
    | none => .error .timeParseError
    | some t => .ok (if ¬ t < goAddDate now 0 6 0 then goAddDate t (-1) 0 0 else t)
  else
    if f2.length ≠ 4 then .error .unsupportedListDate
    else
      let timeStr := f1 ++ [' '] ++ f0 ++ [' '] ++ f2 ++ [' '] ++ str "00:00"
      match parseTimeLs timeStr with
      | none => .error .timeParseError
      | some t => .ok t

/-! ## The five recognizers (`parse.go`) -/

/-- One `key=value` fact of an RFC 3659 line, applied to the accumulating
entry; `Index(field, "=") < 1` is the shared sentinel, `modify`/`size`
failures are hard errors, unknown keys and type values are ignored. -/
def rfcProcessFact (e : Entry) (field : GoStr) : Except GoError Entry :=
  let i := idxInt (goIndexSub (str "=") field)
  if i < 1 then .error .unsupportedListLine
  else
    let key := goToLower (field.take i.toNat)
    let value := field.drop (i.toNat + 1)
    if key = str "modify" then
      match parseTimeModify value with
      | none => .error .timeParseError
      | some t => .ok { e with time := t }
    else if key = str "type" then
      if value = str "dir" ∨ value = str "cdir" ∨ value = str "pdir" then
        .ok { e with type := .folder }
      else if value = str "file" then .ok { e with type := .file }
      else .ok e
    else if key = str "size" then
      match setSizeVal value with
      | .error ne => .error (.numError ne)
      | .ok n => .ok { e with size := n }
    else .ok e

/-- The fact loop of `parseNextRFC3659ListLine`. -/
def rfcProcessFacts : List GoStr → Entry → Except GoError Entry
  | [], e => .ok e
  | f :: rest, e =>
    match rfcProcessFact e f with
    | .error err => .error err
    | .ok e1 => rfcProcessFacts rest e1

/-- `parseNextRFC3659ListLine`: a semicolon must occur strictly before the
first space; the name is everything after that space and must agree with an
already-set name; then the facts (the text before the byte preceding the
space, split on `;`) are folded into the entry. -/
def parseNextRFC3659ListLine (line : GoStr) (e : Entry) : Except GoError Entry :=
  let iSemicolon := idxInt (goIndexSub (str ";") line)
  let iWhitespace := idxInt (goIndexSub (str " ") line)
  if iSemicolon < 0 ∨ iWhitespace < iSemicolon then .error .unsupportedListLine
  else
    let name := line.drop (iWhitespace + 1).toNat
    if e.name ≠ [] ∧ e.name ≠ name then .error .unsupportedListLine
    else
      rfcProcessFacts (goSplitSemi (line.take (iWhitespace - 1).toNat))
        { e with name := name }

/-- `parseRFC3659ListLine`. -/
def parseRFC3659ListLine (line : GoStr) (_now : Int) : Except GoError Entry :=
  parseNextRFC3659ListLine line emptyEntry

/-- The structural precondition of the Unix-`ls` recognizer: the first space
at index 10, or at index 11 with byte 10 an ACL `+` marker. -/
def lsFirstFieldOK (line : GoStr) : Bool :=
  let i := idxInt (goIndexByte line ' ')
  i = 10 ∨ (i = 11 ∧ goStrAt line 10 = '+')

/-- The symbolic-link split of `parseLsListLine`: the name splits on the
first `" -> "` only when its index is strictly positive. -/
def lsLinkNameSplit (name : GoStr) : GoStr × GoStr :=
  match goIndexSub (str " -> ") name with
  | some i => if 0 < i then (name.take i, name.drop (i + 4)) else (name, [])
  | none => (name, [])

/-- `parseLsListLine`: Unix `ls`-style lines, with the folder-literal,
zero-link-count and generic branches. -/
def parseLsListLine (line : GoStr) (now : Int) : Except GoError Entry :=
  if ¬ lsFirstFieldOK line then .error .unsupportedListLine
  else
    let sf := scanNextFields 6 line
    let fields := sf.1
    let s1 := sf.2
    if fields.length < 6 then .error .unsupportedListLine
    else if fields.getD 1 [] = str "folder" ∧ fields.getD 2 [] = str "0" then
      match setTime3 (fields.getD 3 []) (fields.getD 4 []) (fields.getD 5 []) now with
      | .error err => .error err
      | .ok t => .ok { emptyEntry with type := .folder, name := s1, time := t }
    else if fields.getD 1 [] = str "0" then
      let p := scanNext s1
      let fields7 := fields ++ [p.1]
      let s2 := p.2
      match setSizeVal (fields7.getD 2 []) with
      | .error _ => .error .unsupportedListLine
      | .ok sz =>
        match setTime3 (fields7.getD 4 []) (fields7.getD 5 []) (fields7.getD 6 []) now with
        | .error err => .error err
        | .ok t => .ok { emptyEntry with type := .file, name := s2, size := sz, time := t }
    else
      let q := scanNextFields 2 s1
      let fields8 := fields ++ q.1
      let s2 := q.2
      if fields8.length < 8 then .error .unsupportedListLine
      else
        let c := goStrAt (fields8.getD 0 []) 0
        if c = '-' then
          match setSizeVal (fields8.getD 4 []) with
          | .error ne => .error (.numError ne)
          | .ok sz =>
            match setTime3 (fields8.getD 5 []) (fields8.getD 6 []) (fields8.getD 7 []) now with
            | .error err => .error err
            | .ok t => .ok { emptyEntry with type := .file, name := s2, size := sz, time := t }
        else if c = 'd' then
          match setTime3 (fields8.getD 5 []) (fields8.getD 6 []) (fields8.getD 7 []) now with
          | .error err => .error err
          | .ok t => .ok { emptyEntry with type := .folder, name := s2, time := t }
        else if c = 'l' then
          let nt := lsLinkNameSplit s2
          match setTime3 (fields8.getD 5 []) (fields8.getD 6 []) (fields8.getD 7 []) now with
          | .error err => .error err
          | .ok t =>
            .ok { emptyEntry with type := .link, name := nt.1, target := nt.2, time := t }
        else .error .unknownListEntryType

/-- The `dirTimeFormats` table: layout length paired with its parser. -/
def dirTimeFormats : List (Nat × (GoStr → Option Int)) :=
  [(17, parseDirFmt1), (17, parseDirFmt2), (19, parseDirFmt3), (17, parseDirFmt4)]

/-- The format loop of `parseDirListLine`.  State mirrors the Go locals:
the entry's time so far, the (possibly shortened) line, and whether `err`
is non-nil.  A format is attempted only when the line is strictly longer
than the layout; on success the loop breaks with the prefix consumed; on
failure the time is the zero `time.Time` and `err` is set. -/
def dirTryFormats : List (Nat × (GoStr → Option Int)) → GoStr → Int → Bool →
    Int × GoStr × Bool
  | [], line, t, errFlag => (t, line, errFlag)
  | (flen, fparse) :: rest, line, t, errFlag =>
    if flen < line.length then
      match fparse (line.take flen) with
      | some t1 => (t1, line.drop flen, false)
      | none => dirTryFormats rest line goZeroTime true
    else dirTryFormats rest line t errFlag

/-- `parseDirListLine`: MS-DOS `DIR`-style lines.  Note that `err` starts
nil, so when no format was even attempted the post-loop check passes with
the zero timestamp. -/
def parseDirListLine (line : GoStr) (_now : Int) : Except GoError Entry :=
  let r := dirTryFormats dirTimeFormats line goZeroTime false
  let t := r.1
  let line1 := r.2.1
  if r.2.2 then .error .unsupportedListLine
  else
    let line2 := dropLeadingSpaces line1
    if List.isPrefixOf (str "<DIR>") line2 then
      .ok { emptyEntry with
              type := .folder, time := t, name := dropLeadingSpaces (line2.drop 5) }
    else
      match goIndexSub (str " ") line2 with
      | none => .error .unsupportedListLine
      | some sp =>
        match goParseUint (line2.take sp) 10 with
        | .error _ => .error .unsupportedListLine
        | .ok sz =>
          .ok { emptyEntry with
                  type := .file, size := sz, time := t,
                  name := dropLeadingSpaces (line2.drop sp) }

/-- `parseHostedFTPLine`: 10-byte mode field with link count `0`; rewrites
the link count to `1` and re-dispatches to the Unix-`ls` recognizer. -/
def parseHostedFTPLine (line : GoStr) (now : Int) : Except GoError Entry :=
  if idxInt (goIndexByte line ' ') ≠ 10 then .error .unsupportedListLine
  else
    let p := scanNextFields 2 line
    if p.1.length < 2 ∨ p.1.getD 1 [] ≠ str "0" then .error .unsupportedListLine
    else parseLsListLine (p.1.getD 0 [] ++ str " 1 " ++ p.2) now

/-- `parseIbmListLine`: fixed-column IBM (AS/400) lines. -/
def parseIbmListLine (line : GoStr) (_now : Int) : Except GoError Entry :=
  let p1 := scanNext line
  let owner := p1.1
  if owner = [] then .error .unsupportedListLine else
  let p2 := scanNext p1.2
  let sizeStr := p2.1
  if sizeStr = [] then .error .unsupportedListLine else
  let p3 := scanNext p2.2
  let dateStr := p3.1
  if dateStr = [] ∨ dateStr.length ≠ 8 then .error .unsupportedListLine else
  let p4 := scanNext p3.2
  let timeStr := p4.1
  if timeStr = [] ∨ timeStr.length ≠ 8 then .error .unsupportedListLine else
  let p5 := scanNext p4.2
  let fileType := p5.1
  if fileType = [] then .error .unsupportedListLine else
  let path := dropLeadingSpaces p5.2
  if path = [] then .error .unsupportedListLine else
  match goParseUint sizeStr 10 with
  | .error ne => .error (.numError ne)
  | .ok size =>
  match goAtoi (dateStr.take 2) with
  | .error ne => .error (.numError ne)
  | .ok day =>
  match goAtoi ((dateStr.drop 3).take 2) with
  | .error ne => .error (.numError ne)
  | .ok month =>
  match goAtoi ((dateStr.drop 6).take 2) with
  | .error ne => .error (.numError ne)
  | .ok year0 =>
  let year := 2000 + year0
  match goAtoi (timeStr.take 2) with
  | .error ne => .error (.numError ne)
  | .ok hour =>
  match goAtoi ((timeStr.drop 3).take 2) with
  | .error ne => .error (.numError ne)
  | .ok minute =>
  match goAtoi ((timeStr.drop 6).take 2) with
  | .error ne => .error (.numError ne)
  | .ok sec =>
  let timestamp := goDate year month day hour minute sec
  let entryType : EntryType := if fileType = str "*DIR" then .folder else .file
  let name :=
    if entryType = .folder ∧ goHasSuffix path (str "/") then path.take (path.length - 1)
    else path
  .ok { name := name, size := size, time := timestamp, type := entryType }

/-! ## The dispatch chain -/

/-- The type of one recognizer. -/
abbrev ParseFunc := GoStr → Int → Except GoError Entry

/-- `listLineParsers`: the fixed recognizer order. -/
def listLineParsers : List ParseFunc :=
  [parseRFC3659ListLine, parseLsListLine, parseDirListLine,
   parseHostedFTPLine, parseIbmListLine]

/-- Is a result the shared "not this dialect" sentinel? -/
def isNotDialect : Except GoError Entry → Bool
  | .error .unsupportedListLine => true
  | _ => false

/-- The loop body of `parseListLine`: return the first result that is not
the exact sentinel. -/
def runParsers : List ParseFunc → GoStr → Int → Except GoError Entry
  | [], _, _ => .error .unsupportedListLine
  | p :: ps, line, now =>
    match p line now with
    | .error .unsupportedListLine => runParsers ps line now
    | r => r

/-- `parseListLine`: the public dispatch over `listLineParsers`. -/
def parseListLine (line : GoStr) (now : Int) : Except GoError Entry :=
  runParsers listLineParsers line now

instance : DecidableEq (Except GoError Entry) := fun a b =>
  match a, b with
  | .ok x, .ok y =>
    if h : x = y then .isTrue (congrArg Except.ok h)
    else .isFalse fun hh => h (Except.ok.inj hh)
  | .error x, .error y =>
    if h : x = y then .isTrue (congrArg Except.error h)
    else .isFalse fun hh => h (Except.error.inj hh)
  | .ok _, .error _ => .isFalse fun hh => Except.noConfusion hh
  | .error _, .ok _ => .isFalse fun hh => Except.noConfusion hh

/-! ## Helper lemmas -/

theorem isNotDialect_iff (r : Except GoError Entry) :
    isNotDialect r = true ↔ r = .error .unsupportedListLine := by
  cases r with
  | ok e => simp [isNotDialect]
  | error err => cases err <;> simp [isNotDialect]

theorem runParsers_eq_find (ps : List ParseFunc) (line : GoStr) (now : Int) :
    runParsers ps line now =
      ((ps.map fun p => p line now).find? fun r => ! isNotDialect r).getD
        (.error .unsupportedListLine) := by
  induction ps with
  | nil => rfl
  | cons p ps ih =>
    cases hr : p line now with
    | ok e => simp [runParsers, hr, List.find?, isNotDialect]
    | error err =>
      cases err <;> simp [runParsers, hr, List.find?, isNotDialect, ih]

theorem runParsers_all_sentinel (ps : List ParseFunc) (line : GoStr) (now : Int)
    (h : ∀ p ∈ ps, p line now = .error .unsupportedListLine) :
    runParsers ps line now = .error .unsupportedListLine := by
  induction ps with
  | nil => rfl
  | cons p ps ih =>
    have hp := h p (List.mem_cons_self p ps)
    simp only [runParsers, hp]
    exact ih fun q hq => h q (List.mem_cons_of_mem p hq)

theorem rfcProcessFacts_append (xs ys : List GoStr) (e : Entry) :
    rfcProcessFacts (xs ++ ys) e =
      match rfcProcessFacts xs e with
      | .ok e1 => rfcProcessFacts ys e1
      | .error err => .error err := by
  induction xs generalizing e with
  | nil => simp [rfcProcessFacts]
  | cons f rest ih =>
    simp only [List.cons_append, rfcProcessFacts]
    cases rfcProcessFact e f <;> simp [ih]

theorem rfcProcessFact_bad (e : Entry) (field : GoStr)
    (h : idxInt (goIndexSub (str "=") field) < 1) :
    rfcProcessFact e field = .error .unsupportedListLine := by
  unfold rfcProcessFact
  rw [if_pos h]

theorem parseLsListLine_reaches_zero (line : GoStr) (now : Int)
    (f6 : List GoStr) (s1 : GoStr)
    (h1 : lsFirstFieldOK line = true)
    (h2 : scanNextFields 6 line = (f6, s1))
    (h3 : ¬ f6.length < 6)
    (_h4 : ¬ (f6.getD 1 [] = str "folder" ∧ f6.getD 2 [] = str "0"))
    (h5 : f6.getD 1 [] = str "0") :
    parseLsListLine line now =
      (let p := scanNext s1
       let fields7 := f6 ++ [p.1]
       match setSizeVal (fields7.getD 2 []) with
       | .error _ => .error .unsupportedListLine
       | .ok sz =>
         match setTime3 (fields7.getD 4 []) (fields7.getD 5 []) (fields7.getD 6 []) now with
         | .error err => .error err
         | .ok t =>
           .ok { emptyEntry with type := .file, name := p.2, size := sz, time := t }) := by
  simp only [parseLsListLine, h1, h2, h3, h5, not_true_eq_false, Bool.not_eq_true,
    if_false, if_true, ite_true, ite_false, not_false_eq_true]
  rw [if_neg fun h => absurd h.1 (by decide)]

theorem parseLsListLine_reaches_generic (line : GoStr) (now : Int)
    (f6 : List GoStr) (s1 : GoStr) (f2 : List GoStr) (s2 : GoStr)
    (h1 : lsFirstFieldOK line = true)
    (h2 : scanNextFields 6 line = (f6, s1))
    (h3 : ¬ f6.length < 6)
    (h4 : ¬ (f6.getD 1 [] = str "folder" ∧ f6.getD 2 [] = str "0"))
    (h5 : ¬ f6.getD 1 [] = str "0")
    (h6 : scanNextFields 2 s1 = (f2, s2))
    (h7 : ¬ (f6 ++ f2).length < 8) :
    parseLsListLine line now =
      (let fields8 := f6 ++ f2
       let c := goStrAt (fields8.getD 0 []) 0
       if c = '-' then
         match setSizeVal (fields8.getD 4 []) with
         | .error ne => .error (.numError ne)
         | .ok sz =>
           match setTime3 (fields8.getD 5 []) (fields8.getD 6 []) (fields8.getD 7 []) now with
           | .error err => .error err
           | .ok t => .ok { emptyEntry with type := .file, name := s2, size := sz, time := t }
       else if c = 'd' then
         match setTime3 (fields8.getD 5 []) (fields8.getD 6 []) (fields8.getD 7 []) now with
         | .error err => .error err
         | .ok t => .ok { emptyEntry with type := .folder, name := s2, time := t }
       else if c = 'l' then
         let nt := lsLinkNameSplit s2
         match setTime3 (fields8.getD 5 []) (fields8.getD 6 []) (fields8.getD 7 []) now with
         | .error err => .error err
         | .ok t =>
           .ok { emptyEntry with type := .link, name := nt.1, target := nt.2, time := t }
       else .error .unknownListEntryType) := by
  simp only [parseLsListLine, h1, h2, h3, h4, h5, h6, h7, not_true_eq_false, Bool.not_eq_true,
    if_false, if_true, ite_true, ite_false, not_false_eq_true]

theorem isPrefixOf_eq_true_iff (p l : GoStr) : List.isPrefixOf p l = true ↔ p <+: l :=
  List.isPrefixOf_iff_prefix

theorem takeIsPre (l : GoStr) (n : Nat) : l.take n <+: l :=
  List.take_prefix n l

theorem goIndexSub_zero_eq (pat r : GoStr) (h : goIndexSub pat r = some 0) :
    List.isPrefixOf pat r = true := by
  cases r with
  | nil =>
    simp only [goIndexSub] at h
    by_cases hp : pat = []
    · subst hp; rfl
    · rw [if_neg hp] at h; exact absurd h (by simp)
  | cons c rest =>
    simp only [goIndexSub] at h
    by_cases hp : List.isPrefixOf pat (c :: rest)
    · exact hp
    · rw [if_neg hp] at h
      cases hidx : goIndexSub pat rest with
      | none => rw [hidx] at h; exact absurd h (by simp)
      | some j => rw [hidx] at h; simp at h

theorem goIndexSub_take_none (pat : GoStr) (hpat : pat ≠ []) :
    ∀ (r : GoStr) (i : Nat), goIndexSub pat r = some i →
      goIndexSub pat (r.take i) = none := by
  intro r
  induction r with
  | nil =>
    intro i h
    simp only [goIndexSub] at h
    rw [if_neg hpat] at h
    exact absurd h (by simp)
  | cons c rest ih =>
    intro i h
    simp only [goIndexSub] at h
    by_cases hp : List.isPrefixOf pat (c :: rest)
    · rw [if_pos hp] at h
      obtain rfl : (0 : Nat) = i := by simpa using h
      simp only [List.take_zero, goIndexSub]
      rw [if_neg hpat]
    · rw [if_neg hp] at h
      cases hidx : goIndexSub pat rest with
      | none => rw [hidx] at h; exact absurd h (by simp)
      | some j =>
        rw [hidx] at h
        obtain rfl : j + 1 = i := by simpa using h
        simp only [List.take_succ_cons, goIndexSub]
        rw [if_neg ?_, ih j hidx]
        · rfl
        · intro hcontra
          refine hp ((isPrefixOf_eq_true_iff pat (c :: rest)).mpr ?_)
          refine ((isPrefixOf_eq_true_iff pat (c :: rest.take j)).mp hcontra).trans ?_
          exact (List.cons_prefix_cons).mpr ⟨rfl, takeIsPre rest j⟩

/-! ## Claim theorems -/

/-- C7: the line `"OWNER 12288 13/05/25 13:26:12 *DIR .deleted/"` passes the
first four recognizers as not-this-dialect, succeeds via the IBM fixed-column
recognizer, and through the full chain yields name `".deleted"` (trailing
separator stripped), size 12288, type Folder and time 2025-05-13 13:26:12
(two-digit year promoted to 2000 + 25). -/
theorem parseListLine_ibm_example (now : Int) :
    parseRFC3659ListLine (str "OWNER 12288 13/05/25 13:26:12 *DIR .deleted/") now
        = .error .unsupportedListLine
    ∧ parseLsListLine (str "OWNER 12288 13/05/25 13:26:12 *DIR .deleted/") now
        = .error .unsupportedListLine
    ∧ parseDirListLine (str "OWNER 12288 13/05/25 13:26:12 *DIR .deleted/") now
        = .error .unsupportedListLine
    ∧ parseHostedFTPLine (str "OWNER 12288 13/05/25 13:26:12 *DIR .deleted/") now
        = .error .unsupportedListLine
    ∧ parseIbmListLine (str "OWNER 12288 13/05/25 13:26:12 *DIR .deleted/") now
        = .ok { name := str ".deleted", target := [], size := 12288,
                type := .folder, time := goDate 2025 5 13 13 26 12 }
    ∧ parseListLine (str "OWNER 12288 13/05/25 13:26:12 *DIR .deleted/") now
        = .ok { name := str ".deleted", target := [], size := 12288,
                type := .folder, time := goDate 2025 5 13 13 26 12 } :=
  ⟨rfl, rfl, rfl, rfl, rfl, rfl⟩

/-- C5 (code bug): on a line shorter than every `DIR` time format, `err`
stays nil although no format parsed, so `parseDirListLine` does not return
the not-this-dialect sentinel: `"12 x"` yields a populated File record whose
timestamp is the zero `time.Time`, produced by no format — and the full
chain returns that record. -/
theorem parseDirListLine_short_line_accepts (now : Int) :
    parseDirListLine (str "12 x") now
        = .ok { name := str "x", target := [], size := 12, type := .file,
                time := goZeroTime }
    ∧ parseListLine (str "12 x") now
        = .ok { name := str "x", target := [], size := 12, type := .file,
                time := goZeroTime }
    ∧ goZeroTime = goDate 1 1 1 0 0 0 :=
  ⟨rfl, rfl, rfl⟩

/-- C2: the dispatch chain tries the five recognizers in the fixed order
fact-list, Unix-ls, DOS-DIR, quirk, IBM; it returns the first result that is
not the exact shared sentinel (a record or any other error), advancing past
a recognizer only on that sentinel, and returns the unrecognized-dialect
error when every recognizer returns the sentinel. -/
theorem parseListLine_dispatch_chain :
    listLineParsers = [parseRFC3659ListLine, parseLsListLine, parseDirListLine,
      parseHostedFTPLine, parseIbmListLine]
    ∧ (∀ line now,
        parseListLine line now =
          ((listLineParsers.map fun p => p line now).find? fun r => ! isNotDialect r).getD
            (.error .unsupportedListLine))
    ∧ (∀ line now,
        (∀ p ∈ listLineParsers, p line now = .error .unsupportedListLine) →
          parseListLine line now = .error .unsupportedListLine) :=
  ⟨rfl,
   fun line now => runParsers_eq_find listLineParsers line now,
   fun line now h => runParsers_all_sentinel listLineParsers line now h⟩

/-- Witness for C2 at the line `"total 1"`: every recognizer returns the
sentinel there, and the chain returns the unrecognized-dialect error. -/
theorem parseListLine_dispatch_chain_witness :
    parseListLine (str "total 1") 0 = .error .unsupportedListLine :=
  parseListLine_dispatch_chain.2.2 (str "total 1") 0 (by
    intro p hp
    simp only [listLineParsers, List.mem_cons, List.not_mem_nil, or_false] at hp
    rcases hp with rfl | rfl | rfl | rfl | rfl <;> rfl)

/-- C8: when every recognizer returns the not-this-dialect sentinel the
top-level parse returns the unrecognized-dialect error and no record; in
particular the empty string and the summary line `"total 1"` fail every
recognizer's structural precondition and yield that error (each recognizer
is a total Lean function, so no out-of-bounds access or panic occurs). -/
theorem parseListLine_dispatch_exhaustion :
    (∀ line now,
      (∀ p ∈ listLineParsers, p line now = .error .unsupportedListLine) →
        parseListLine line now = .error .unsupportedListLine)
    ∧ (∀ now, parseListLine (str "") now = .error .unsupportedListLine
        ∧ ∀ p ∈ listLineParsers, p (str "") now = .error .unsupportedListLine)
    ∧ (∀ now, parseListLine (str "total 1") now = .error .unsupportedListLine
        ∧ ∀ p ∈ listLineParsers, p (str "total 1") now = .error .unsupportedListLine) := by
  refine ⟨fun line now h => runParsers_all_sentinel listLineParsers line now h,
    fun now => ⟨rfl, ?_⟩, fun now => ⟨rfl, ?_⟩⟩ <;>
  · intro p hp
    simp only [listLineParsers, List.mem_cons, List.not_mem_nil, or_false] at hp
    rcases hp with rfl | rfl | rfl | rfl | rfl <;> rfl

/-- Witness for C8 at the empty string, discharging the all-sentinel
hypothesis by evaluation. -/
theorem parseListLine_dispatch_exhaustion_witness :
    parseListLine (str "") 0 = .error .unsupportedListLine :=
  parseListLine_dispatch_exhaustion.1 (str "") 0 (by
    intro p hp
    simp only [listLineParsers, List.mem_cons, List.not_mem_nil, or_false] at hp
    rcases hp with rfl | rfl | rfl | rfl | rfl <;> rfl)

/-- C9 (amended): `setSize` is the one base-0 `ParseUint` for every dialect
that uses it, so the Unix-ls recognizer too accepts alternate base prefixes
in the size field: `0x10` parses as size 16 and `0o17` as size 15, exactly
as the RFC 3659 `size` fact does. -/
theorem setSize_base0_shared :
    (∀ s, setSizeVal s = goParseUint s 0)
    ∧ (∀ now, parseLsListLine (str "-rwxr-xr-x 1 o g 0x10 Dec 02 2009 f") now
        = .ok { name := str "f", target := [], size := 16, type := .file,
                time := goDate 2009 12 2 0 0 0 })
    ∧ (∀ now, parseLsListLine (str "-rwxr-xr-x 1 o g 0o17 Dec 02 2009 f") now
        = .ok { name := str "f", target := [], size := 15, type := .file,
                time := goDate 2009 12 2 0 0 0 })
    ∧ (∀ now, parseRFC3659ListLine (str "type=file;size=0x10; n") now
        = .ok { name := str "n", target := [], size := 16, type := .file,
                time := goZeroTime }) :=
  ⟨fun _ => rfl, fun _ => rfl, fun _ => rfl, fun _ => rfl⟩

/-- Counterexample to C9 as stated: a size token with an alternate base
prefix is accepted by the Unix-ls recognizer — `"0x10"` yields a populated
record with size 16, not a rejection. -/
theorem lsSize_hex_prefix_accepted :
    parseLsListLine (str "-rwxr-xr-x 1 o g 0x10 Dec 02 2009 f") 0
      = .ok { name := str "f", target := [], size := 16, type := .file,
              time := goDate 2009 12 2 0 0 0 } :=
  rfl

/-- C1: for date fields whose third token contains a colon, `setTime`
composes `day month currentYear(now) time`, and subtracts exactly one year
precisely when the composed timestamp is not strictly before
`now.AddDate(0, 6, 0)`; with reference time 2017-03-10 23:00, `Sep 10 23:00`
resolves to 2016-09-10 23:00 and `Sep 10 22:59` to 2017-09-10 22:59. -/
theorem setTime_recency_correction :
    (∀ f0 f1 f2 now t, goContains f2 (str ":") = true →
      parseTimeLs (f1 ++ [' '] ++ f0 ++ [' '] ++ intToDec (goYearOf now) ++ [' '] ++ f2)
          = some t →
      setTime3 f0 f1 f2 now
        = .ok (if ¬ t < goAddDate now 0 6 0 then goAddDate t (-1) 0 0 else t))
    ∧ setTime3 (str "Sep") (str "10") (str "23:00") (goDate 2017 3 10 23 0 0)
        = .ok (goDate 2016 9 10 23 0 0)
    ∧ setTime3 (str "Sep") (str "10") (str "22:59") (goDate 2017 3 10 23 0 0)
        = .ok (goDate 2017 9 10 22 59 0) := by
  refine ⟨fun f0 f1 f2 now t hc hp => ?_, rfl, rfl⟩
  simp only [setTime3, hc, if_true, hp]

/-- Witness for C1: the general rule applied at the boundary input
`Sep 10 23:00` with reference time 2017-03-10 23:00. -/
theorem setTime_recency_correction_witness :
    setTime3 (str "Sep") (str "10") (str "23:00") (goDate 2017 3 10 23 0 0)
      = .ok (if ¬ goDate 2017 9 10 23 0 0 < goAddDate (goDate 2017 3 10 23 0 0) 0 6 0
             then goAddDate (goDate 2017 9 10 23 0 0) (-1) 0 0
             else goDate 2017 9 10 23 0 0) :=
  setTime_recency_correction.1 (str "Sep") (str "10") (str "23:00")
    (goDate 2017 3 10 23 0 0) (goDate 2017 9 10 23 0 0) rfl rfl

/-- C10: on a line passing the fact-list recognizer's structural
precondition, a fact with no `=` or with `=` first (once the facts before it
processed without error) makes the recognizer return the shared sentinel —
not a hard error, not a silently skipped fact. -/
theorem rfc_bad_fact_yields_sentinel (line : GoStr) (now : Int)
    (good : List GoStr) (bad : GoStr) (rest : List GoStr) (e1 : Entry)
    (hpre : ¬ (idxInt (goIndexSub (str ";") line) < 0
        ∨ idxInt (goIndexSub (str " ") line) < idxInt (goIndexSub (str ";") line)))
    (hsplit : goSplitSemi (line.take (idxInt (goIndexSub (str " ") line) - 1).toNat)
        = good ++ bad :: rest)
    (hbad : idxInt (goIndexSub (str "=") bad) < 1)
    (hgood : rfcProcessFacts good
        { name := line.drop (idxInt (goIndexSub (str " ") line) + 1).toNat,
          target := [], size := 0, type := .file, time := goZeroTime } = .ok e1) :
    parseRFC3659ListLine line now = .error .unsupportedListLine := by
  unfold parseRFC3659ListLine parseNextRFC3659ListLine
  rw [if_neg hpre, if_neg (by simp [emptyEntry])]
  rw [hsplit, rfcProcessFacts_append]
  simp only [emptyEntry]
  rw [hgood]
  simp only [rfcProcessFacts, rfcProcessFact_bad e1 bad hbad]

/-- Witness for C10 at the repository's test line
`"modify=20150806235817;invalid;UNIX.owner=0; movies"`. -/
theorem rfc_bad_fact_yields_sentinel_witness :
    parseRFC3659ListLine (str "modify=20150806235817;invalid;UNIX.owner=0; movies") 0
      = .error .unsupportedListLine :=
  rfc_bad_fact_yields_sentinel
    (str "modify=20150806235817;invalid;UNIX.owner=0; movies") 0
    [str "modify=20150806235817"] (str "invalid") [str "UNIX.owner=0"]
    { name := str "movies", target := [], size := 0, type := .file,
      time := goDate 2015 8 6 23 58 17 }
    (by decide) (by decide) (by decide) (by decide)

/-- Counterexample to C3 as stated: in the Unix-ls zero-link-count branch a
size token that fails to parse yields the not-this-dialect sentinel (not a
hard error), and the chain then continues — here all the way to the quirk
recognizer, whose rewritten line parses successfully, so the final result is
a record, not an error at all. -/
theorem lsZeroBranch_sizeError_is_sentinel :
    parseLsListLine (str "-r-------- 0 user group 65222236 Feb 24 00:39 f")
        (goDate 2017 3 10 23 0 0) = .error .unsupportedListLine
    ∧ parseListLine (str "-r-------- 0 user group 65222236 Feb 24 00:39 f")
        (goDate 2017 3 10 23 0 0)
      = .ok { name := str "f", target := [], size := 65222236, type := .file,
              time := goDate 2017 2 24 0 39 0 } :=
  ⟨rfl, rfl⟩

/-- C3 (amended): a size token that fails unsigned-integer parsing is
classified per branch: in the zero-link-count branch it yields the
not-this-dialect sentinel (letting the chain continue, which the quirk
recognizer relies on), while in the generic file branch it is a hard
`strconv` error — never the sentinel — which the chain propagates as the
final result; in neither branch is a record with a defaulted size returned. -/
theorem lsSizeError_branch_classification :
    (∀ line now f6 s1 ne,
      lsFirstFieldOK line = true →
      scanNextFields 6 line = (f6, s1) →
      ¬ f6.length < 6 →
      ¬ (f6.getD 1 [] = str "folder" ∧ f6.getD 2 [] = str "0") →
      f6.getD 1 [] = str "0" →
      setSizeVal (f6.getD 2 []) = .error ne →
      parseLsListLine line now = .error .unsupportedListLine)
    ∧ (∀ line now f6 s1 f2 s2 ne,
      lsFirstFieldOK line = true →
      scanNextFields 6 line = (f6, s1) →
      ¬ f6.length < 6 →
      ¬ (f6.getD 1 [] = str "folder" ∧ f6.getD 2 [] = str "0") →
      ¬ f6.getD 1 [] = str "0" →
      scanNextFields 2 s1 = (f2, s2) →
      ¬ (f6 ++ f2).length < 8 →
      goStrAt ((f6 ++ f2).getD 0 []) 0 = '-' →
      setSizeVal ((f6 ++ f2).getD 4 []) = .error ne →
      parseLsListLine line now = .error (.numError ne)
        ∧ GoError.numError ne ≠ GoError.unsupportedListLine)
    ∧ (∀ line now f6 s1 f2 s2 ne,
      parseRFC3659ListLine line now = .error .unsupportedListLine →
      lsFirstFieldOK line = true →
      scanNextFields 6 line = (f6, s1) →
      ¬ f6.length < 6 →
      ¬ (f6.getD 1 [] = str "folder" ∧ f6.getD 2 [] = str "0") →
      ¬ f6.getD 1 [] = str "0" →
      scanNextFields 2 s1 = (f2, s2) →
      ¬ (f6 ++ f2).length < 8 →
      goStrAt ((f6 ++ f2).getD 0 []) 0 = '-' →
      setSizeVal ((f6 ++ f2).getD 4 []) = .error ne →
      parseListLine line now = .error (.numError ne)) := by
  have hzero : ∀ (line : GoStr) (now : Int) (f6 : List GoStr) (s1 : GoStr) (ne : NumErr),
      lsFirstFieldOK line = true →
      scanNextFields 6 line = (f6, s1) →
      ¬ f6.length < 6 →
      ¬ (f6.getD 1 [] = str "folder" ∧ f6.getD 2 [] = str "0") →
      f6.getD 1 [] = str "0" →
      setSizeVal (f6.getD 2 []) = .error ne →
      parseLsListLine line now = .error .unsupportedListLine := by
    intro line now f6 s1 ne h1 h2 h3 h4 h5 h6
    rw [parseLsListLine_reaches_zero line now f6 s1 h1 h2 h3 h4 h5]
    have hlt : (2 : Nat) < f6.length := by omega
    simp only [List.getD_append _ _ _ _ hlt, h6]
  have hgen : ∀ (line : GoStr) (now : Int) (f6 : List GoStr) (s1 : GoStr)
      (f2 : List GoStr) (s2 : GoStr) (ne : NumErr),
      lsFirstFieldOK line = true →
      scanNextFields 6 line = (f6, s1) →
      ¬ f6.length < 6 →
      ¬ (f6.getD 1 [] = str "folder" ∧ f6.getD 2 [] = str "0") →
      ¬ f6.getD 1 [] = str "0" →
      scanNextFields 2 s1 = (f2, s2) →
      ¬ (f6 ++ f2).length < 8 →
      goStrAt ((f6 ++ f2).getD 0 []) 0 = '-' →
      setSizeVal ((f6 ++ f2).getD 4 []) = .error ne →
      parseLsListLine line now = .error (.numError ne) := by
    intro line now f6 s1 f2 s2 ne h1 h2 h3 h4 h5 h6 h7 h8 h9
    rw [parseLsListLine_reaches_generic line now f6 s1 f2 s2 h1 h2 h3 h4 h5 h6 h7]
    simp only [h8, if_true, ite_true, h9]
  refine ⟨hzero, fun line now f6 s1 f2 s2 ne h1 h2 h3 h4 h5 h6 h7 h8 h9 =>
    ⟨hgen line now f6 s1 f2 s2 ne h1 h2 h3 h4 h5 h6 h7 h8 h9,
     fun hh => GoError.noConfusion hh⟩,
    fun line now f6 s1 f2 s2 ne hrfc h1 h2 h3 h4 h5 h6 h7 h8 h9 => ?_⟩
  have hls := hgen line now f6 s1 f2 s2 ne h1 h2 h3 h4 h5 h6 h7 h8 h9
  simp only [parseListLine, listLineParsers, runParsers, hrfc, hls]

/-- Witness for C3 at the zero-link-count line
`"-r-------- 0 user group 65222236 Feb 24 00:39 f"` (size token `"user"`,
sentinel) and the generic line `"-rwxr-xr-x 1 o g 12x34 Dec 02 2009 f"`
(size token `"12x34"`, hard error propagated by the chain). -/
theorem lsSizeError_branch_classification_witness :
    parseLsListLine (str "-r-------- 0 user group 65222236 Feb 24 00:39 f") 0
        = .error .unsupportedListLine
    ∧ parseLsListLine (str "-rwxr-xr-x 1 o g 12x34 Dec 02 2009 f") 0
        = .error (.numError .syn)
    ∧ parseListLine (str "-rwxr-xr-x 1 o g 12x34 Dec 02 2009 f") 0
        = .error (.numError .syn) :=
  ⟨lsSizeError_branch_classification.1
      (str "-r-------- 0 user group 65222236 Feb 24 00:39 f") 0
      [str "-r--------", str "0", str "user", str "group", str "65222236", str "Feb"]
      (str "24 00:39 f") .syn rfl rfl (by decide) (by decide) rfl rfl,
   (lsSizeError_branch_classification.2.1
      (str "-rwxr-xr-x 1 o g 12x34 Dec 02 2009 f") 0
      [str "-rwxr-xr-x", str "1", str "o", str "g", str "12x34", str "Dec"]
      (str "02 2009 f") [str "02", str "2009"] (str "f") .syn
      rfl rfl (by decide) (by decide) (by decide) rfl (by decide) rfl rfl).1,
   lsSizeError_branch_classification.2.2
      (str "-rwxr-xr-x 1 o g 12x34 Dec 02 2009 f") 0
      [str "-rwxr-xr-x", str "1", str "o", str "g", str "12x34", str "Dec"]
      (str "02 2009 f") [str "02", str "2009"] (str "f") .syn
      rfl rfl rfl (by decide) (by decide) (by decide) rfl (by decide) rfl rfl⟩

/-- Counterexample to C6 as stated: a line whose 10-byte first field starts
with `Z` but whose second field is the literal `folder` (third `0`) takes
the folder-literal branch before the mode character is ever inspected, so it
parses successfully instead of yielding the unknown-entry-type error. -/
theorem lsUnknownMode_folder_branch_accepts :
    parseListLine (str "Zrwxrwxrwx folder 0 Aug 15 05:49 n") (goDate 2017 3 10 23 0 0)
      = .ok { name := str "n", target := [], size := 0, type := .folder,
              time := goDate 2017 8 15 5 49 0 } :=
  rfl

/-- C6 (amended): once a line reaches the generic Unix-ls branch (first
field of mode shape, at least eight fields, second field neither `folder`
with third `0` nor `0`), a leading mode character other than `-`, `d`, `l`
yields the hard `UnknownEntryType` error, which the dispatch chain
propagates as the final result instead of falling through. -/
theorem lsUnknownMode_generic_branch_error :
    (∀ line now f6 s1 f2 s2 c,
      lsFirstFieldOK line = true →
      scanNextFields 6 line = (f6, s1) →
      ¬ f6.length < 6 →
      ¬ (f6.getD 1 [] = str "folder" ∧ f6.getD 2 [] = str "0") →
      ¬ f6.getD 1 [] = str "0" →
      scanNextFields 2 s1 = (f2, s2) →
      ¬ (f6 ++ f2).length < 8 →
      goStrAt ((f6 ++ f2).getD 0 []) 0 = c →
      c ≠ '-' → c ≠ 'd' → c ≠ 'l' →
      parseLsListLine line now = .error .unknownListEntryType)
    ∧ (∀ line now f6 s1 f2 s2 c,
      parseRFC3659ListLine line now = .error .unsupportedListLine →
      lsFirstFieldOK line = true →
      scanNextFields 6 line = (f6, s1) →
      ¬ f6.length < 6 →
      ¬ (f6.getD 1 [] = str "folder" ∧ f6.getD 2 [] = str "0") →
      ¬ f6.getD 1 [] = str "0" →
      scanNextFields 2 s1 = (f2, s2) →
      ¬ (f6 ++ f2).length < 8 →
      goStrAt ((f6 ++ f2).getD 0 []) 0 = c →
      c ≠ '-' → c ≠ 'd' → c ≠ 'l' →
      parseListLine line now = .error .unknownListEntryType) := by
  have hmain : ∀ (line : GoStr) (now : Int) (f6 : List GoStr) (s1 : GoStr)
      (f2 : List GoStr) (s2 : GoStr) (c : Char),
      lsFirstFieldOK line = true →
      scanNextFields 6 line = (f6, s1) →
      ¬ f6.length < 6 →
      ¬ (f6.getD 1 [] = str "folder" ∧ f6.getD 2 [] = str "0") →
      ¬ f6.getD 1 [] = str "0" →
      scanNextFields 2 s1 = (f2, s2) →
      ¬ (f6 ++ f2).length < 8 →
      goStrAt ((f6 ++ f2).getD 0 []) 0 = c →
      c ≠ '-' → c ≠ 'd' → c ≠ 'l' →
      parseLsListLine line now = .error .unknownListEntryType := by
    intro line now f6 s1 f2 s2 c h1 h2 h3 h4 h5 h6 h7 hc hne1 hne2 hne3
    rw [parseLsListLine_reaches_generic line now f6 s1 f2 s2 h1 h2 h3 h4 h5 h6 h7]
    simp only [hc]
    rw [if_neg hne1, if_neg hne2, if_neg hne3]
  refine ⟨hmain, fun line now f6 s1 f2 s2 c hrfc h1 h2 h3 h4 h5 h6 h7 hc hne1 hne2 hne3 => ?_⟩
  have hls := hmain line now f6 s1 f2 s2 c h1 h2 h3 h4 h5 h6 h7 hc hne1 hne2 hne3
  simp only [parseListLine, listLineParsers, runParsers, hrfc, hls]

/-- Witness for C6 at the repository's test line starting with mode byte
`Z`, through the recognizer and through the full chain. -/
theorem lsUnknownMode_generic_branch_error_witness :
    parseLsListLine (str "Zrwxrwxrwx   1 root     other          7 Jan 25 00:17 bin -> usr/bin") 0
        = .error .unknownListEntryType
    ∧ parseListLine (str "Zrwxrwxrwx   1 root     other          7 Jan 25 00:17 bin -> usr/bin") 0
        = .error .unknownListEntryType :=
  ⟨lsUnknownMode_generic_branch_error.1
      (str "Zrwxrwxrwx   1 root     other          7 Jan 25 00:17 bin -> usr/bin") 0
      [str "Zrwxrwxrwx", str "1", str "root", str "other", str "7", str "Jan"]
      (str "25 00:17 bin -> usr/bin") [str "25", str "00:17"] (str "bin -> usr/bin") 'Z'
      rfl rfl (by decide) (by decide) (by decide) rfl (by decide) rfl
      (by decide) (by decide) (by decide),
   lsUnknownMode_generic_branch_error.2
      (str "Zrwxrwxrwx   1 root     other          7 Jan 25 00:17 bin -> usr/bin") 0
      [str "Zrwxrwxrwx", str "1", str "root", str "other", str "7", str "Jan"]
      (str "25 00:17 bin -> usr/bin") [str "25", str "00:17"] (str "bin -> usr/bin") 'Z'
      rfl rfl rfl (by decide) (by decide) (by decide) rfl (by decide) rfl
      (by decide) (by decide) (by decide)⟩

/-- Counterexample to C4 as stated: when the remainder of a symbolic-link
line begins with the separator `" -> "` (index 0), the split is skipped, so
the whole remainder — separator included — becomes the name: the claim's
"name is the text before the separator" and "name never contains the
separator" both fail on this recognized link entry. -/
theorem lsSymlink_name_contains_separator :
    parseListLine (str "lrwxrwxrwx 1 root other 7 Jan 25 00:17  -> usr/bin")
        (goDate 2017 3 10 23 0 0)
      = .ok { name := str " -> usr/bin", target := [], size := 0, type := .link,
              time := goDate 2017 1 25 0 17 0 }
    ∧ goContains (str " -> usr/bin") (str " -> ") = true :=
  ⟨rfl, rfl⟩

/-- C4 (amended): a Unix-ls SymbolicLink entry's name splits on the first
occurrence of `" -> "` only when that occurrence is at a strictly positive
index (name before, target after); when the separator is absent or the
remainder begins with it, the whole remainder is the name with an empty
target — hence a link name contains the separator only when the remainder
itself starts with it. -/
theorem lsSymlink_split_rule :
    (∀ r i, goIndexSub (str " -> ") r = some i → 0 < i →
      lsLinkNameSplit r = (r.take i, r.drop (i + 4)))
    ∧ (∀ r, goIndexSub (str " -> ") r = none ∨ goIndexSub (str " -> ") r = some 0 →
      lsLinkNameSplit r = (r, []))
    ∧ (∀ r, goContains (lsLinkNameSplit r).1 (str " -> ") = true →
      List.isPrefixOf (str " -> ") r = true ∧ (lsLinkNameSplit r).1 = r)
    ∧ (∀ line now f6 s1 f2 s2 t,
      lsFirstFieldOK line = true →
      scanNextFields 6 line = (f6, s1) →
      ¬ f6.length < 6 →
      ¬ (f6.getD 1 [] = str "folder" ∧ f6.getD 2 [] = str "0") →
      ¬ f6.getD 1 [] = str "0" →
      scanNextFields 2 s1 = (f2, s2) →
      ¬ (f6 ++ f2).length < 8 →
      goStrAt ((f6 ++ f2).getD 0 []) 0 = 'l' →
      setTime3 ((f6 ++ f2).getD 5 []) ((f6 ++ f2).getD 6 []) ((f6 ++ f2).getD 7 []) now
          = .ok t →
      parseLsListLine line now
        = .ok { name := (lsLinkNameSplit s2).1, target := (lsLinkNameSplit s2).2,
                size := 0, type := .link, time := t }) := by
  have hsplit1 : ∀ (r : GoStr) (i : Nat), goIndexSub (str " -> ") r = some i → 0 < i →
      lsLinkNameSplit r = (r.take i, r.drop (i + 4)) := by
    intro r i h hpos
    simp only [lsLinkNameSplit, h, if_pos hpos]
  have hsplit2 : ∀ r : GoStr,
      goIndexSub (str " -> ") r = none ∨ goIndexSub (str " -> ") r = some 0 →
      lsLinkNameSplit r = (r, []) := by
    intro r h
    rcases h with h | h <;> simp [lsLinkNameSplit, h]
  refine ⟨hsplit1, hsplit2, fun r hcont => ?_, ?_⟩
  · cases hidx : goIndexSub (str " -> ") r with
    | none =>
      rw [hsplit2 r (Or.inl hidx)] at hcont
      simp only [goContains, hidx] at hcont
      exact absurd hcont (by simp)
    | some i =>
      match i, hidx with
      | 0, hidx =>
        rw [hsplit2 r (Or.inr hidx)] at hcont
        exact ⟨goIndexSub_zero_eq _ r hidx, by rw [hsplit2 r (Or.inr hidx)]⟩
      | j + 1, hidx =>
        rw [hsplit1 r (j + 1) hidx (by omega)] at hcont
        simp only [goContains] at hcont
        rw [goIndexSub_take_none (str " -> ") (by decide) r (j + 1) hidx] at hcont
        exact absurd hcont (by simp)
  · intro line now f6 s1 f2 s2 t h1 h2 h3 h4 h5 h6 h7 hc ht
    rw [parseLsListLine_reaches_generic line now f6 s1 f2 s2 h1 h2 h3 h4 h5 h6 h7]
    simp only [hc]
    rw [if_neg (by decide), if_neg (by decide)]
    simp only [if_true, ht, emptyEntry]

/-- Witness for C4: the split characterization and the link-branch result at
the repository's test line `"lrwxrwxrwx   1 root     other          7 Jan 25
00:17 bin -> usr/bin"`, whose remainder is `"bin -> usr/bin"`. -/
theorem lsSymlink_split_rule_witness :
    lsLinkNameSplit (str "bin -> usr/bin")
        = ((str "bin -> usr/bin").take 3, (str "bin -> usr/bin").drop 7)
    ∧ parseLsListLine (str "lrwxrwxrwx   1 root     other          7 Jan 25 00:17 bin -> usr/bin")
        (goDate 2017 3 10 23 0 0)
      = .ok { name := (lsLinkNameSplit (str "bin -> usr/bin")).1,
              target := (lsLinkNameSplit (str "bin -> usr/bin")).2,
              size := 0, type := .link, time := goDate 2017 1 25 0 17 0 } :=
  ⟨lsSymlink_split_rule.1 (str "bin -> usr/bin") 3 rfl (by decide),
   lsSymlink_split_rule.2.2.2
      (str "lrwxrwxrwx   1 root     other          7 Jan 25 00:17 bin -> usr/bin")
      (goDate 2017 3 10 23 0 0)
      [str "lrwxrwxrwx", str "1", str "root", str "other", str "7", str "Jan"]
      (str "25 00:17 bin -> usr/bin") [str "25", str "00:17"] (str "bin -> usr/bin")
      (goDate 2017 1 25 0 17 0)
      rfl rfl (by decide) (by decide) (by decide) rfl (by decide) rfl rfl⟩

end FtpList
